import Mathlib

/-!
Shallow embedding of the RF propagation engine of `entropyvision`
(source: `src/unnamed/part_001`, plus the margin computation of
`src/app/api/explain-rf/route.ts`).

Conventions of the embedding:
* JavaScript `number` is modelled as `ℝ`.  The JS value `-Infinity`
  (which `probeAtWithRc` produces for the best power of an empty
  transmitter set via `sorted[0] ?? -Infinity`) is modelled by `(⊥ : EReal)`;
  the JS `NaN` arising from `-Infinity - -Infinity` in the margin of an
  empty probe is also modelled by `⊥`, which reproduces every comparison
  the program performs on it (`NaN >= 3` is `false`, all quality-tier
  comparisons are `false`).
* `THREE.Vector3` is the structure `Vec3` below; `v.normalize()` is
  `divideScalar(length || 1)` in three.js, so the zero vector normalizes
  to itself, which `normalize` reproduces.
* The scene geometry (`meshes` + `THREE.Raycaster`) is external to the
  engine; it is modelled by `Geometry`: a mesh count (the code short
  circuits on `meshes.length === 0`) and a nearest-hit oracle
  `nearestHit origin dir far` returning the closest intersection within
  `far`, already carrying the world-space face normal and the
  `userData.materialType` tag of the hit object.
* Rendering-only data (colors, the `segments` arrays that
  `buildRayBundle` pushes in lockstep with `hops`, the `toFixed`
  formatting of the `dist` row field) is elided: `segments` has exactly
  one entry per hop, so the `if (segments.length)` test of the source is
  the test `hops ≠ []`.
-/

/-- `THREE.Vector3`. -/
@[ext]
structure Vec3 where
  x : ℝ
  y : ℝ
  z : ℝ

namespace Vec3

def add (a b : Vec3) : Vec3 := ⟨a.x + b.x, a.y + b.y, a.z + b.z⟩

def sub (a b : Vec3) : Vec3 := ⟨a.x - b.x, a.y - b.y, a.z - b.z⟩

def smul (c : ℝ) (a : Vec3) : Vec3 := ⟨c * a.x, c * a.y, c * a.z⟩

instance : Add Vec3 := ⟨add⟩

instance : Sub Vec3 := ⟨sub⟩

instance : SMul ℝ Vec3 := ⟨smul⟩

/-- `THREE.Vector3.dot`. -/
def dot (a b : Vec3) : ℝ := a.x * b.x + a.y * b.y + a.z * b.z

/-- `THREE.Vector3.length`. -/
noncomputable def len (a : Vec3) : ℝ := Real.sqrt (a.x ^ 2 + a.y ^ 2 + a.z ^ 2)

/-- `THREE.Vector3.distanceTo`. -/
noncomputable def distTo (a b : Vec3) : ℝ := len (b - a)

/-- `THREE.Vector3.normalize` = `divideScalar(length || 1)`:
the zero vector is left unchanged. -/
noncomputable def normalize (a : Vec3) : Vec3 :=
  if len a = 0 then a else (1 / len a) • a

/-- `THREE.Vector3.lerpVectors a b t`. -/
def lerp (a b : Vec3) (t : ℝ) : Vec3 :=
  ⟨a.x + (b.x - a.x) * t, a.y + (b.y - a.y) * t, a.z + (b.z - a.z) * t⟩

end Vec3

/-- `const DEFAULT_FREQ = 2400` (MHz). -/
def DEFAULT_FREQ : ℝ := 2400

/-- `const DEFAULT_PWR = 36` (dBm). -/
def DEFAULT_PWR : ℝ := 36

/-- `const MAX_BOUNCES = 2`. -/
def MAX_BOUNCES : ℕ := 2

/-- `const MIN_POWER_DBM = -110` — marching terminates at or under this. -/
def MIN_POWER_DBM : ℝ := -110

/-- `const WALL_LOSS_DB = 25` — generic NLOS penalty. -/
def WALL_LOSS_DB : ℝ := 25

/-- A transmitter (`type Tx`); `id`, `color` and `mobility` play no role in
the claims and are elided. -/
structure Tx where
  pos : Vec3
  powerDbm : ℝ
  freqMHz : ℝ

/-- `fsplDb(dMeters, fMHz)`:
`dKm = Math.max(dMeters / 1000, 0.001)` and
`32.4 + 20 * Math.log10(fMHz) + 20 * Math.log10(dKm)`. -/
noncomputable def fsplDb (dMeters fMHz : ℝ) : ℝ :=
  32.4 + 20 * Real.logb 10 fMHz + 20 * Real.logb 10 (max (dMeters / 1000) 0.001)

/-- `reflect(dir, normal)` = `dir.sub(normal.multiplyScalar(2 * dir.dot(normal))).normalize()`. -/
noncomputable def reflect (dir normal : Vec3) : Vec3 :=
  Vec3.normalize (dir - (2 * Vec3.dot dir normal) • normal)

/-- `fibonacciSphereDirs(n)`: near-uniform unit directions, deterministic in `n`. -/
noncomputable def fibonacciSphereDirs (n : ℕ) : List Vec3 :=
  let phi := Real.pi * (3 - Real.sqrt 5)
  (List.range n).map fun i =>
    let y : ℝ := 1 - ((i : ℝ) / (max (n - 1) 1 : ℕ)) * 2
    let radius := Real.sqrt (max (1 - y * y) 0)
    let theta := phi * (i : ℝ)
    Vec3.normalize ⟨Real.cos theta * radius, y, Real.sin theta * radius⟩

/-- `softmaxDbm(values, temp)`: returns the normalized weights and the index of
the first maximal value (`values.indexOf(Math.max(...values))`), or
`{weights: [], bestIdx: -1}` for an empty list.  The source guards the
normalizer with `|| 1`, modelled by the `if sum = 0` test. -/
noncomputable def softmaxDbm (values : List ℝ) (temp : ℝ) : List ℝ × ℤ :=
  match values with
  | [] => ([], -1)
  | v :: vs =>
    let maxv := vs.foldl max v
    let exps := (v :: vs).map fun w => Real.exp ((w - maxv) / temp)
    let sum := if exps.sum = 0 then 1 else exps.sum
    let weights := exps.map fun e => e / sum
    (weights, ((v :: vs).indexOf maxv : ℕ))

/-- One raycaster intersection: `{point, distance, face normal (world space),
object userData.materialType}`.  `material = none` models a mesh whose
`userData` carries no `materialType` tag. -/
structure Hit where
  point : Vec3
  distance : ℝ
  normal : Vec3
  material : Option String

/-- The external scene: the number of collected meshes and the nearest-hit
query `rc.set(origin, dir); rc.far = far; rc.intersectObjects(meshes)[0]`. -/
structure Geometry where
  meshCount : ℕ
  nearestHit : Vec3 → Vec3 → ℝ → Option Hit

/-- `materialReflectionLossDb(mesh, normal, dirIn)`:
`grazing = 1 - |normal.normalize().dot(dirIn.normalize())|`, then
glass 10–20 dB, metal 0–3 dB, concrete/default 3–9 dB. -/
noncomputable def materialReflectionLossDb
    (matType : Option String) (normal dirIn : Vec3) : ℝ :=
  let grazing := 1 - |Vec3.dot (Vec3.normalize normal) (Vec3.normalize dirIn)|
  if matType = some "glass" then 10 + 10 * grazing
  else if matType = some "metal" then 0 + 3 * grazing
  else 3 + 6 * grazing

/-- The hop's `material` label:
`first ? "los" : hit.object.userData?.materialType || "concrete"`
(`||` also replaces the empty string). -/
def hopMaterial (m : Option String) : String :=
  match m with
  | some s => if s = "" then "concrete" else s
  | none => "concrete"

/-- One recorded hop of `buildRayBundle` (`type RayHop`). -/
structure RayHop where
  src : Vec3
  dst : Vec3
  distance : ℝ
  fsplLoss : ℝ
  reflLoss : ℝ
  material : String
  prAfter : ℝ

/-- The `while (bounces <= maxBounces && power > MIN_POWER_DBM)` marching loop
of `buildRayBundle`, as fuel recursion: `fuel` is the number of remaining
loop iterations (`maxBounces + 1` at entry).  The trailing
`if (power <= MIN_POWER_DBM) break` of the loop body coincides with the head
guard of the next iteration. -/
noncomputable def march (g : Geometry) (tx : Tx) :
    ℕ → Vec3 → Vec3 → ℝ → Bool → List RayHop
  | 0, _, _, _, _ => []
  | fuel + 1, origin, dir, power, first =>
    if power ≤ MIN_POWER_DBM then []
    else
      match g.nearestHit origin dir 5000 with
      | none => []
      | some hit =>
        let fspl := fsplDb hit.distance tx.freqMHz
        let refl := if first then 0
          else materialReflectionLossDb hit.material hit.normal dir
        let power2 := power - fspl - refl
        let hop : RayHop :=
          { src := origin, dst := hit.point, distance := hit.distance
            fsplLoss := fspl, reflLoss := refl
            material := if first then "los" else hopMaterial hit.material
            prAfter := power2 }
        let newDir := reflect dir hit.normal
        hop :: march g tx fuel (hit.point + (0.25 : ℝ) • newDir) newDir power2 false

/-- A ray bundle: the ordered hop list of one sampled direction (the
rendering-only `segments`/`color` fields are elided; `segments` is pushed in
lockstep with `hops`, so the source's `if (segments.length)` test is
`hops ≠ []`). -/
structure RayBundle where
  hops : List RayHop

/-- `buildRayBundle(tx, meshes, rayCount, maxBounces)`: empty when there are no
meshes; otherwise marches each Fibonacci-sphere direction from an origin
offset `0.5` along the ray, keeping bundles with at least one hop. -/
noncomputable def buildRayBundle
    (tx : Tx) (g : Geometry) (rayCount : ℕ) (maxBounces : ℕ) : List RayBundle :=
  if g.meshCount = 0 then []
  else
    (fibonacciSphereDirs rayCount).filterMap fun dir =>
      let hops := march g tx (maxBounces + 1)
        (tx.pos + (0.5 : ℝ) • dir) dir tx.powerDbm true
      if hops.isEmpty then none else some ⟨hops⟩

/-- One ranked row of a probe (`ProbePayload["rows"]`); `dist` is kept as a
real (the source stores `dist.toFixed(1)`, a display string). -/
structure ProbeRow where
  idx : ℕ
  pr : ℝ
  los : Bool
  dist : ℝ
  freq : ℝ

/-- `type ProbePayload`.  `bestPower` and `margin` are `EReal` because the
source produces `-Infinity` (and, for the empty set, `NaN`) there; see the
header comment. -/
structure ProbePayload where
  rows : List ProbeRow
  bestIdx : ℤ
  margin : EReal
  bestPower : EReal
  qualityTier : String
  interferenceCount : ℕ
  handoverStable : Prop
  weights : List ℝ

/-- The received power of one transmitter at probe point `p`:
`dist` and normalized direction to the transmitter, a single LOS query with
`rc.far = Math.max(dist - 0.25, 0.25)`, then
`pl = fsplDb(dist, freq) + (los ? 0 : WALL_LOSS_DB)` and `val = powerDbm - pl`. -/
noncomputable def probeVal (g : Geometry) (p : Vec3) (t : Tx) : ℝ :=
  let dist := Vec3.len (t.pos - p)
  let dirN := Vec3.normalize (t.pos - p)
  let los := (g.nearestHit p dirN (max (dist - 0.25) 0.25)).isNone
  let pl := fsplDb dist t.freqMHz + (if los then 0 else WALL_LOSS_DB)
  t.powerDbm - pl

/-- The row `probeAtWithRc` pushes for the transmitter at `forEach` index
`idx` (the source stores `idx + 1`, a 1-based label). -/
noncomputable def probeRowOf (g : Geometry) (p : Vec3) (idx : ℕ) (t : Tx) :
    ProbeRow :=
  let dist := Vec3.len (t.pos - p)
  let dirN := Vec3.normalize (t.pos - p)
  let los := (g.nearestHit p dirN (max (dist - 0.25) 0.25)).isNone
  { idx := idx + 1, pr := probeVal g p t, los := los
    dist := dist, freq := t.freqMHz }

/-- The `rows.push(...)` loop of `probeAtWithRc`, with `idx` the running
`forEach` index. -/
noncomputable def probeRows (g : Geometry) (p : Vec3) : ℕ → List Tx → List ProbeRow
  | _, [] => []
  | idx, t :: rest => probeRowOf g p idx t :: probeRows g p (idx + 1) rest

/-- The quality-tier step function applied by `probeAtWithRc` to `best`:
`> -70 → "excellent"`, `> -85 → "good"`, `> -100 → "fair"`,
`> MIN_POWER_DBM → "poor"`, else `"dead"`. -/
noncomputable def qualityTierOf (best : EReal) : String :=
  if ((-70 : ℝ) : EReal) < best then "excellent"
  else if ((-85 : ℝ) : EReal) < best then "good"
  else if ((-100 : ℝ) : EReal) < best then "fair"
  else if ((MIN_POWER_DBM : ℝ) : EReal) < best then "poor"
  else "dead"

/-- The received powers sorted descending:
`[...pr].sort((a, b) => b - a)`. -/
noncomputable def sortedPowers (g : Geometry) (p : Vec3) (txs : List Tx) : List ℝ :=
  (txs.map (probeVal g p)).insertionSort fun a b => b ≤ a

/-- `probeAtWithRc(rc, p, txs, meshes)`. -/
noncomputable def probeAtWithRc (g : Geometry) (p : Vec3) (txs : List Tx) :
    ProbePayload :=
  let pr := txs.map (probeVal g p)
  let sm := softmaxDbm pr 4
  let sorted := sortedPowers g p txs
  let best : EReal := match sorted.head? with
    | some b => (b : EReal)
    | none => ⊥                          -- `sorted[0] ?? -Infinity`
  let secondBest : EReal := match sorted.get? 1 with
    | some s => (s : EReal)
    | none => best                       -- `sorted[1] ?? best`
  { rows := probeRows g p 0 txs
    bestIdx := (if 0 ≤ sm.2 then sm.2 else 0) + 1
    margin := best - secondBest
    bestPower := best
    qualityTier := qualityTierOf best
    interferenceCount := (pr.filter fun v => (-80 : ℝ) < v).length
    handoverStable := ((3 : ℝ) : EReal) ≤ best - secondBest
    weights := sm.1 }

/-- `probeAt(p, txs, meshes)`: convenience wrapper around `probeAtWithRc`. -/
noncomputable def probeAt (p : Vec3) (txs : List Tx) (g : Geometry) : ProbePayload :=
  probeAtWithRc g p txs

/-- The margin of `src/app/api/explain-rf/route.ts` (lines 75–84), as a
function of the descending-sorted received powers:
`secondBest ? best - secondBest : Infinity`. -/
def routeMargin (sortedDesc : List ℝ) : EReal :=
  match sortedDesc with
  | b :: s :: _ => ((b - s : ℝ) : EReal)
  | _ => ⊤

/-- `const MAX_TX = 8` — fixed shader array size. -/
def MAX_TX : ℕ := 8

/-- The superposed field `E` of the `InterferenceField` fragment shader:
for each of the first `min(txs.length, MAX_TX)` transmitters (the `useFrame`
uniform update fills only those slots; later slots get zero amplitude and
frequency and are skipped by the `f <= 0` guard),
`d = length(world - pos) + 1e-3`, `lambda = C / f`,
`k = (2*PI/lambda) * spatialScale`, `omega = 2*PI*f`,
`phase = omega * time * phaseTimeScale - k * d`,
`A = sqrt(10^((dBm - 30)/10)) / d`, summing `A * cos(phase)`. -/
noncomputable def fieldE (txs : List Tx) (world : Vec3)
    (time phaseTimeScale spatialScale : ℝ) : ℝ :=
  ((txs.take MAX_TX).map fun tx =>
    let d := Vec3.len (world - tx.pos) + 1e-3
    let f := tx.freqMHz * 1e6
    if f ≤ 0 then 0
    else
      let lambda := 299792458 / f
      let k := 2 * Real.pi / lambda * spatialScale
      let omega := 2 * Real.pi * f
      let phase := omega * time * phaseTimeScale - k * d
      let A := Real.sqrt ((10 : ℝ) ^ ((tx.powerDbm - 30) / 10)) / d
      A * Real.cos phase).sum

/-- The shader's final intensity: `I = E*E*uIntensityScale; v = 1 - exp(-I)`. -/
noncomputable def fieldValue (txs : List Tx) (world : Vec3)
    (time phaseTimeScale intensityScale spatialScale : ℝ) : ℝ :=
  let E := fieldE txs world time phaseTimeScale spatialScale
  1 - Real.exp (-(E * E * intensityScale))

/-- `intensityScale = 6.0` — the component's default prop. -/
def DEFAULT_INTENSITY_SCALE : ℝ := 6

/-- `const STEP = 6` — meters between samples along the drive-test polyline. -/
def STEP : ℝ := 6

/-- The per-segment sample count of `PathRfOverlay`:
`segLen = Math.max(a.distanceTo(b), 1e-6)`,
`count = Math.max(2, Math.ceil(segLen / STEP))`. -/
noncomputable def segmentCount (a b : Vec3) : ℕ :=
  max 2 ⌈max (Vec3.distTo a b) 1e-6 / STEP⌉₊

/-- The samples of one segment: for `k < count`, `t = k / (count - 1)`,
`p = lerpVectors(a, b, t)` followed by `p.y = points[i].y` (the segment
start's `y`). -/
noncomputable def segmentSamples (a b : Vec3) : List Vec3 :=
  (List.range (segmentCount a b)).map fun (k : ℕ) =>
    let t : ℝ := (k : ℝ) / ((segmentCount a b : ℝ) - 1)
    let p := Vec3.lerp a b t
    ⟨p.x, a.y, p.z⟩

/-- The adjacent-vertex pairs of the polyline (`points[i], points[i+1]`). -/
def pathPairs (points : List Vec3) : List (Vec3 × Vec3) :=
  points.zip points.tail

/-- All samples of the polyline, in traversal order. -/
noncomputable def pathSamples (points : List Vec3) : List Vec3 :=
  (pathPairs points).flatMap fun ab => segmentSamples ab.1 ab.2

/-- The best-server index the overlay reads at a sample: `payload.bestIdx`. -/
noncomputable def bestAt (g : Geometry) (txs : List Tx) (p : Vec3) : ℤ :=
  (probeAtWithRc g p txs).bestIdx

/-- A handover marker: `{pos, from: lastBest, to: payload.bestIdx}`. -/
structure HandoverEv where
  pos : Vec3
  src : ℤ
  dst : ℤ

/-- The handover tracking of `PathRfOverlay`: `lastBest` starts at `-1` and
threads through every sample in order; an event is pushed when
`lastBest !== -1 && payload.bestIdx !== lastBest`. -/
noncomputable def scanHandovers (g : Geometry) (txs : List Tx) :
    ℤ → List Vec3 → List HandoverEv
  | _, [] => []
  | lastBest, p :: rest =>
    let b := bestAt g txs p
    if lastBest ≠ -1 ∧ b ≠ lastBest then
      ⟨p, lastBest, b⟩ :: scanHandovers g txs b rest
    else scanHandovers g txs b rest

/-- The analysis `useMemo` of `PathRfOverlay`: empty when the polyline has
fewer than two points, there are no transmitters, or no meshes; otherwise the
flattened samples (each probed via `probeAt`) and the handover events. -/
noncomputable def analyzePath (g : Geometry) (txs : List Tx)
    (points : List Vec3) : List Vec3 × List HandoverEv :=
  if points.length < 2 ∨ txs.length = 0 ∨ g.meshCount = 0 then ([], [])
  else (pathSamples points, scanHandovers g txs (-1) (pathSamples points))

/-! ### Arithmetic helper lemmas -/

lemma logb10_1000 : Real.logb 10 1000 = 3 := by
  rw [show (1000 : ℝ) = 10 ^ (3 : ℕ) by norm_num, Real.logb_pow,
    Real.logb_self_eq_one (by norm_num)]
  norm_num

lemma logb10_thousandth : Real.logb 10 (0.001 : ℝ) = -3 := by
  rw [show (0.001 : ℝ) = (1000 : ℝ)⁻¹ by norm_num, Real.logb_inv, logb10_1000]

lemma logb10_100 : Real.logb 10 (100 : ℝ) = 2 := by
  rw [show (100 : ℝ) = 10 ^ (2 : ℕ) by norm_num, Real.logb_pow,
    Real.logb_self_eq_one (by norm_num)]
  norm_num

lemma logb10_100000 : Real.logb 10 (100000 : ℝ) = 5 := by
  rw [show (100000 : ℝ) = 10 ^ (5 : ℕ) by norm_num, Real.logb_pow,
    Real.logb_self_eq_one (by norm_num)]
  norm_num

/-- For frequencies of at least 100 MHz (every frequency the app uses is
2400 MHz), one hop's free-space loss is nonnegative at any distance. -/
lemma fsplDb_nonneg {d f : ℝ} (hf : 100 ≤ f) : 0 ≤ fsplDb d f := by
  unfold fsplDb
  have h1 : (2 : ℝ) ≤ Real.logb 10 f := by
    rw [← logb10_100]
    exact Real.logb_le_logb_of_le (by norm_num) (by norm_num) hf
  have h2 : (-3 : ℝ) ≤ Real.logb 10 (max (d / 1000) 0.001) := by
    rw [← logb10_thousandth]
    exact Real.logb_le_logb_of_le (by norm_num) (by norm_num) (le_max_right _ _)
  linarith

lemma fsplDb_one_one : fsplDb 1 1 = -27.6 := by
  unfold fsplDb
  rw [show max ((1 : ℝ) / 1000) 0.001 = 0.001 by norm_num, logb10_thousandth,
    Real.logb_one]
  norm_num

lemma fsplDb_1000_100000 : fsplDb 1000 100000 = 132.4 := by
  unfold fsplDb
  rw [show max ((1000 : ℝ) / 1000) 0.001 = 1 by norm_num, Real.logb_one,
    logb10_100000]
  norm_num

/-! ### Vec3 helper lemmas -/

lemma Vec3.len_nonneg (a : Vec3) : 0 ≤ Vec3.len a := Real.sqrt_nonneg _

lemma Vec3.sq_len (a : Vec3) : Vec3.len a ^ 2 = a.x ^ 2 + a.y ^ 2 + a.z ^ 2 :=
  Real.sq_sqrt (by positivity)

lemma Vec3.len_smul (c : ℝ) (a : Vec3) : Vec3.len (c • a) = |c| * Vec3.len a := by
  show Vec3.len ⟨c * a.x, c * a.y, c * a.z⟩ = _
  unfold Vec3.len
  rw [show (c * a.x) ^ 2 + (c * a.y) ^ 2 + (c * a.z) ^ 2
      = c ^ 2 * (a.x ^ 2 + a.y ^ 2 + a.z ^ 2) by ring,
    Real.sqrt_mul (sq_nonneg c), Real.sqrt_sq_eq_abs]

/-- Cauchy–Schwarz for `Vec3.dot`, via the Lagrange identity. -/
lemma Vec3.sq_dot_le (a b : Vec3) :
    Vec3.dot a b ^ 2 ≤ (Vec3.len a * Vec3.len b) ^ 2 := by
  have h : (Vec3.len a * Vec3.len b) ^ 2
      = (a.x ^ 2 + a.y ^ 2 + a.z ^ 2) * (b.x ^ 2 + b.y ^ 2 + b.z ^ 2) := by
    rw [mul_pow, Vec3.sq_len, Vec3.sq_len]
  rw [h]
  unfold Vec3.dot
  nlinarith [sq_nonneg (a.x * b.y - a.y * b.x), sq_nonneg (a.x * b.z - a.z * b.x),
    sq_nonneg (a.y * b.z - a.z * b.y)]

lemma Vec3.abs_dot_le (a b : Vec3) :
    |Vec3.dot a b| ≤ Vec3.len a * Vec3.len b := by
  calc |Vec3.dot a b| = Real.sqrt (Vec3.dot a b ^ 2) := (Real.sqrt_sq_eq_abs _).symm
    _ ≤ Real.sqrt ((Vec3.len a * Vec3.len b) ^ 2) :=
        Real.sqrt_le_sqrt (Vec3.sq_dot_le a b)
    _ = Vec3.len a * Vec3.len b := by
        rw [Real.sqrt_sq (mul_nonneg (Vec3.len_nonneg a) (Vec3.len_nonneg b))]

lemma Vec3.len_normalize_le_one (a : Vec3) : Vec3.len (Vec3.normalize a) ≤ 1 := by
  unfold Vec3.normalize
  by_cases h : Vec3.len a = 0
  · simp [h]
  · rw [if_neg h, Vec3.len_smul]
    have hpos : 0 < Vec3.len a := lt_of_le_of_ne (Vec3.len_nonneg a) (Ne.symm h)
    rw [abs_of_pos (by positivity), one_div, inv_mul_cancel₀ h]

lemma Vec3.abs_dot_normalize_le_one (a b : Vec3) :
    |Vec3.dot (Vec3.normalize a) (Vec3.normalize b)| ≤ 1 := by
  calc |Vec3.dot (Vec3.normalize a) (Vec3.normalize b)|
      ≤ Vec3.len (Vec3.normalize a) * Vec3.len (Vec3.normalize b) :=
        Vec3.abs_dot_le _ _
    _ ≤ 1 * 1 := by
        have h1 := Vec3.len_normalize_le_one a
        have h2 := Vec3.len_normalize_le_one b
        have h3 := Vec3.len_nonneg (Vec3.normalize a)
        have h4 := Vec3.len_nonneg (Vec3.normalize b)
        nlinarith
    _ = 1 := by norm_num

/-- Reflection loss is nonnegative for every material, normal and incidence
direction. -/
lemma materialReflectionLossDb_nonneg (m : Option String) (n d : Vec3) :
    0 ≤ materialReflectionLossDb m n d := by
  unfold materialReflectionLossDb
  dsimp only
  have hg : 0 ≤ 1 - |Vec3.dot (Vec3.normalize n) (Vec3.normalize d)| := by
    have := Vec3.abs_dot_normalize_le_one n d
    linarith
  split
  · linarith
  · split
    · linarith
    · linarith

/-! ### Marching-loop invariants -/

/-- The marching loop only produces hops while the entry power is above the
floor. -/
lemma march_ne_nil_power {g : Geometry} {tx : Tx} {fuel : ℕ} {o d : Vec3}
    {p : ℝ} {first : Bool} (h : march g tx fuel o d p first ≠ []) :
    MIN_POWER_DBM < p := by
  by_contra hp
  push_neg at hp
  cases fuel with
  | zero => exact h rfl
  | succ n =>
    rw [march, if_pos hp] at h
    exact h rfl

/-- Core invariant of the marching loop, for a transmitter frequency of at
least 100 MHz: along the recorded hops, power never increases, and every hop
that is followed by another hop has power strictly above the floor (so the
loop halts as soon as the floor is reached; only the final hop may overshoot
below it). -/
lemma march_chain (g : Geometry) (tx : Tx) (hf : 100 ≤ tx.freqMHz) :
    ∀ (fuel : ℕ) (o d : Vec3) (p : ℝ) (first : Bool),
      List.Chain' (fun h1 h2 =>
        h2.prAfter ≤ h1.prAfter ∧ MIN_POWER_DBM < h1.prAfter)
        (march g tx fuel o d p first) ∧
      ∀ hop, (march g tx fuel o d p first).head? = some hop → hop.prAfter ≤ p := by
  intro fuel
  induction fuel with
  | zero =>
    intro o d p first
    exact ⟨List.chain'_nil, by simp [march]⟩
  | succ n ih =>
    intro o d p first
    rw [march]
    by_cases hp : p ≤ MIN_POWER_DBM
    · rw [if_pos hp]
      exact ⟨List.chain'_nil, by simp⟩
    · rw [if_neg hp]
      cases hhit : g.nearestHit o d 5000 with
      | none => exact ⟨List.chain'_nil, by simp⟩
      | some hit =>
        dsimp only
        have hfspl : 0 ≤ fsplDb hit.distance tx.freqMHz := fsplDb_nonneg hf
        have hrefl : 0 ≤ (if first = true then (0 : ℝ)
            else materialReflectionLossDb hit.material hit.normal d) := by
          split
          · norm_num
          · exact materialReflectionLossDb_nonneg _ _ _
        constructor
        · rw [List.chain'_cons']
          refine ⟨?_, (ih _ _ _ _).1⟩
          intro b hb
          have htail := (ih (hit.point + (0.25 : ℝ) • reflect d hit.normal)
            (reflect d hit.normal)
            (p - fsplDb hit.distance tx.freqMHz -
              if first = true then 0
              else materialReflectionLossDb hit.material hit.normal d)
            false).2 b (by simpa using hb)
          refine ⟨by simpa using htail, ?_⟩
          have hne : march g tx n (hit.point + (0.25 : ℝ) • reflect d hit.normal)
              (reflect d hit.normal)
              (p - fsplDb hit.distance tx.freqMHz -
                if first = true then 0
                else materialReflectionLossDb hit.material hit.normal d)
              false ≠ [] := by
            intro hnil
            rw [hnil] at hb
            simp at hb
          simpa using march_ne_nil_power hne
        · intro hop hhop
          simp only [List.head?_cons, Option.some.injEq] at hhop
          subst hhop
          dsimp only
          linarith

/-! ### Concrete fixtures and evaluation lemmas -/

@[simp] lemma Vec3.add_def (a b : Vec3) :
    a + b = ⟨a.x + b.x, a.y + b.y, a.z + b.z⟩ := rfl

@[simp] lemma Vec3.sub_def (a b : Vec3) :
    a - b = ⟨a.x - b.x, a.y - b.y, a.z - b.z⟩ := rfl

@[simp] lemma Vec3.smul_def (c : ℝ) (a : Vec3) :
    c • a = ⟨c * a.x, c * a.y, c * a.z⟩ := rfl

/-- The origin. -/
def o3 : Vec3 := ⟨0, 0, 0⟩

/-- A scene with one mesh that no ray ever hits (open space). -/
def flatGeom : Geometry := ⟨1, fun _ _ _ => none⟩

/-- A transmitter at the origin with the app's default frequency. -/
def txAt (pw : ℝ) : Tx := ⟨o3, pw, 2400⟩

lemma fibonacciSphereDirs_one :
    fibonacciSphereDirs 1 = [⟨0, 1, 0⟩] := by
  unfold fibonacciSphereDirs
  rw [show List.range 1 = [0] from rfl]
  simp only [List.map_cons, List.map_nil, Nat.cast_zero]
  norm_num [Vec3.normalize, Vec3.len, max_self, Real.sqrt_one]

/-- A wall at distance 1 m with upward normal and untagged material, hit by
every query. -/
def cexHitA : Hit := ⟨⟨0, 0, 0⟩, 1, ⟨0, 1, 0⟩, none⟩

def cexGeomA : Geometry := ⟨1, fun _ _ _ => some cexHitA⟩

/-- A 1 MHz transmitter: at 1 m, `fsplDb` is negative (−27.6 dB), so power
grows along the ray. -/
def cexTxA : Tx := ⟨⟨0, 0, 0⟩, 36, 1⟩

/-- A wall at distance 1000 m with upward normal, hit by every query. -/
def cexHitB : Hit := ⟨⟨0, 0, 0⟩, 1000, ⟨0, 1, 0⟩, none⟩

def cexGeomB : Geometry := ⟨1, fun _ _ _ => some cexHitB⟩

/-- A 100 GHz transmitter: each 1000 m hop loses 132.4 dB, so the second hop
lands far below the −110 dBm floor and is still recorded. -/
def cexTxB : Tx := ⟨⟨0, 0, 0⟩, 36, 100000⟩

lemma reflect_up_up : reflect ⟨0, 1, 0⟩ ⟨0, 1, 0⟩ = ⟨0, -1, 0⟩ := by
  norm_num [reflect, Vec3.dot, Vec3.normalize, Vec3.len, Real.sqrt_one]

lemma reflLoss_up_down : materialReflectionLossDb none ⟨0, 1, 0⟩ ⟨0, -1, 0⟩ = 3 := by
  have h : Vec3.dot (Vec3.normalize ⟨0, 1, 0⟩) (Vec3.normalize ⟨0, -1, 0⟩) = -1 := by
    norm_num [Vec3.dot, Vec3.normalize, Vec3.len, Real.sqrt_one]
  unfold materialReflectionLossDb
  dsimp only
  rw [h, if_neg (by simp), if_neg (by simp)]
  norm_num

/-! ### Claim C2 -/

/-- **C2 (amended).** For every transmitter with carrier frequency at least
100 MHz (the app only creates 2400 MHz transmitters), any geometry, ray count
and bounce limit: in every Ray Bundle returned by `buildRayBundle`, the
received power `prAfter` is non-increasing across successive hops, and every
hop that is followed by another hop has power strictly above the −110 dBm
floor — marching halts as soon as the floor is reached, so only the final
hop may lie at or below it (by at most one hop's loss). -/
theorem rayBundle_hops_monotone_floor (g : Geometry) (tx : Tx)
    (rayCount maxBounces : ℕ) (hf : 100 ≤ tx.freqMHz) :
    ∀ b ∈ buildRayBundle tx g rayCount maxBounces,
      List.Chain' (fun h1 h2 =>
        h2.prAfter ≤ h1.prAfter ∧ MIN_POWER_DBM < h1.prAfter) b.hops := by
  intro b hb
  unfold buildRayBundle at hb
  by_cases hm : g.meshCount = 0
  · rw [if_pos hm] at hb
    simp at hb
  · rw [if_neg hm] at hb
    rcases List.mem_filterMap.mp hb with ⟨dir, _, hdir⟩
    dsimp only at hdir
    by_cases he : (march g tx (maxBounces + 1)
        (tx.pos + (0.5 : ℝ) • dir) dir tx.powerDbm true).isEmpty
    · rw [if_pos he] at hdir
      cases hdir
    · rw [if_neg he] at hdir
      simp only [Option.some.injEq] at hdir
      subst hdir
      exact (march_chain g tx hf _ _ _ _ _).1

/-- Witness for `rayBundle_hops_monotone_floor`: the default 36 dBm /
2400 MHz transmitter in open space. -/
theorem rayBundle_hops_monotone_floor_witness :
    (100 : ℝ) ≤ (txAt 36).freqMHz ∧
    ∀ b ∈ buildRayBundle (txAt 36) flatGeom 4 2,
      List.Chain' (fun h1 h2 =>
        h2.prAfter ≤ h1.prAfter ∧ MIN_POWER_DBM < h1.prAfter) b.hops :=
  ⟨by norm_num [txAt],
    rayBundle_hops_monotone_floor flatGeom (txAt 36) 4 2 (by norm_num [txAt])⟩

/-- **C2 counterexample.** As stated, the claim fails for `buildRayBundle` on
two concrete scenes: a 1 MHz transmitter facing a wall 1 m away has negative
free-space loss per hop, so the recorded powers *increase*
(`[63.6, 88.2]` dBm); and a 100 GHz transmitter facing a wall 1000 m away
records a final hop at −231.8 dBm, far below the −110 dBm floor. -/
theorem rayBundle_hops_monotone_floor_cex :
    ((buildRayBundle cexTxA cexGeomA 1 1).map fun b => b.hops.map RayHop.prAfter)
        = [[63.6, 88.2]] ∧
    (63.6 : ℝ) < 88.2 ∧
    ((buildRayBundle cexTxB cexGeomB 1 1).map fun b => b.hops.map RayHop.prAfter)
        = [[-96.4, -231.8]] ∧
    (-231.8 : ℝ) < MIN_POWER_DBM := by
  refine ⟨?_, by norm_num, ?_, by norm_num [MIN_POWER_DBM]⟩
  · unfold buildRayBundle
    rw [if_neg (by norm_num [cexGeomA]), fibonacciSphereDirs_one]
    norm_num [march, cexGeomA, cexTxA, cexHitA, fsplDb_one_one, reflect_up_up,
      reflLoss_up_down, MIN_POWER_DBM, hopMaterial, List.filterMap_cons]
  · unfold buildRayBundle
    rw [if_neg (by norm_num [cexGeomB]), fibonacciSphereDirs_one]
    norm_num [march, cexGeomB, cexTxB, cexHitB, fsplDb_1000_100000,
      reflect_up_up, reflLoss_up_down, MIN_POWER_DBM, hopMaterial,
      List.filterMap_cons]

/-! ### Claim C3 -/

/-- **C3 counterexample.** `fsplDb` is *not* strictly monotonic on all of
`d2 > d1 > 0`: both 0.5 m and 0.9 m are floored to the 1 m minimum
(`dKm = 0.001`), so the loss is identical. -/
theorem fsplDb_strict_mono_cex :
    (0 : ℝ) < 0.5 ∧ (0.5 : ℝ) < 0.9 ∧ (0 : ℝ) < 2400 ∧
    fsplDb 0.9 2400 = fsplDb 0.5 2400 := by
  refine ⟨by norm_num, by norm_num, by norm_num, ?_⟩
  unfold fsplDb
  rw [show max ((0.9 : ℝ) / 1000) 0.001 = 0.001 by norm_num,
    show max ((0.5 : ℝ) / 1000) 0.001 = 0.001 by norm_num]

/-- **C3 (amended).** Free-space path loss is strictly monotonic in distance
whenever the larger distance lies above the 1 m floor: for `0 < d1 < d2`
with `1 < d2` (and any frequency), `fsplDb d1 f < fsplDb d2 f`.  Distances
that are both ≤ 1 m are floored and give equal loss. -/
theorem fsplDb_strict_mono (d1 d2 f : ℝ) (h0 : 0 < d1) (h12 : d1 < d2)
    (h2 : 1 < d2) (hf : 0 < f) : fsplDb d1 f < fsplDb d2 f := by
  unfold fsplDb
  have hx : (0 : ℝ) < max (d1 / 1000) 0.001 := lt_max_of_lt_right (by norm_num)
  have hmax2 : max (d2 / 1000) 0.001 = d2 / 1000 :=
    max_eq_left (by linarith)
  have hlt : max (d1 / 1000) 0.001 < max (d2 / 1000) 0.001 := by
    rw [hmax2]
    exact max_lt (by linarith) (by linarith)
  have hlog := Real.logb_lt_logb (by norm_num : (1 : ℝ) < 10) hx hlt
  linarith

/-- Witness for `fsplDb_strict_mono`: 1 km versus 2 km at 2400 MHz. -/
theorem fsplDb_strict_mono_witness :
    (0 : ℝ) < 1000 ∧ (1000 : ℝ) < 2000 ∧ (1 : ℝ) < 2000 ∧ (0 : ℝ) < 2400 ∧
    fsplDb 1000 2400 < fsplDb 2000 2400 :=
  ⟨by norm_num, by norm_num, by norm_num, by norm_num,
    fsplDb_strict_mono 1000 2000 2400 (by norm_num) (by norm_num) (by norm_num)
      (by norm_num)⟩

/-! ### Probe helper lemmas -/

instance : IsTotal ℝ fun a b => b ≤ a := ⟨fun a b => le_total b a⟩

instance : IsTrans ℝ fun a b => b ≤ a := ⟨fun _ _ _ h1 h2 => le_trans h2 h1⟩

lemma sortedPowers_length (g : Geometry) (p : Vec3) (txs : List Tx) :
    (sortedPowers g p txs).length = txs.length := by
  unfold sortedPowers
  rw [List.length_insertionSort, List.length_map]

lemma sortedPowers_sorted (g : Geometry) (p : Vec3) (txs : List Tx) :
    (sortedPowers g p txs).Sorted fun a b => b ≤ a :=
  List.sorted_insertionSort _ _

lemma probeRows_get? (g : Geometry) (p : Vec3) :
    ∀ (txs : List Tx) (n i : ℕ),
      (probeRows g p n txs).get? i = (txs.get? i).map (probeRowOf g p (n + i)) := by
  intro txs
  induction txs with
  | nil => intro n i; simp [probeRows]
  | cons t rest ih =>
    intro n i
    cases i with
    | zero => simp [probeRows]
    | succ j =>
      have h := ih (n + 1) j
      simp only [probeRows, List.get?_cons_succ, h]
      rw [show n + 1 + j = n + (j + 1) from by omega]

/-- `qualityTier` is, definitionally, the step function of `bestPower`. -/
lemma probe_qualityTier_eq (g : Geometry) (p : Vec3) (txs : List Tx) :
    (probeAtWithRc g p txs).qualityTier
      = qualityTierOf (probeAtWithRc g p txs).bestPower := rfl

/-- `handoverStable` is, definitionally, `margin ≥ 3`. -/
lemma probe_handoverStable_iff (g : Geometry) (p : Vec3) (txs : List Tx) :
    (probeAtWithRc g p txs).handoverStable
      ↔ ((3 : ℝ) : EReal) ≤ (probeAtWithRc g p txs).margin := Iff.rfl

/-- The step function on real (finite) best powers. -/
lemma qualityTierOf_coe (b : ℝ) :
    qualityTierOf (b : EReal) =
      (if (-70 : ℝ) < b then "excellent"
       else if (-85 : ℝ) < b then "good"
       else if (-100 : ℝ) < b then "fair"
       else if (-110 : ℝ) < b then "poor"
       else "dead") := by
  unfold qualityTierOf MIN_POWER_DBM
  simp only [EReal.coe_lt_coe_iff]

/-! ### Claim C1 -/

/-- **C1.** For every probe over a non-empty transmitter set, the quality
tier is the deterministic step function of the best received power with
strict thresholds (`> −70` excellent, `> −85` good, `> −100` fair, `> −110`
poor, else dead); in particular a best power of exactly −70.0 dBm classifies
as "good" and −69.9 dBm as "excellent". -/
theorem probe_qualityTier_step (g : Geometry) (p : Vec3) (txs : List Tx)
    (h : txs ≠ []) :
    ∃ b : ℝ, (probeAtWithRc g p txs).bestPower = (b : EReal) ∧
      (probeAtWithRc g p txs).qualityTier =
        (if (-70 : ℝ) < b then "excellent"
         else if (-85 : ℝ) < b then "good"
         else if (-100 : ℝ) < b then "fair"
         else if (-110 : ℝ) < b then "poor"
         else "dead") ∧
      (b = -70 → (probeAtWithRc g p txs).qualityTier = "good") ∧
      (b = -69.9 → (probeAtWithRc g p txs).qualityTier = "excellent") := by
  have hlen : (sortedPowers g p txs).length ≠ 0 := by
    rw [sortedPowers_length]
    simpa [List.length_eq_zero] using h
  obtain ⟨s0, rest, hs⟩ : ∃ s0 rest, sortedPowers g p txs = s0 :: rest := by
    cases hsp : sortedPowers g p txs with
    | nil => exact absurd (by rw [hsp]; rfl) hlen
    | cons a l => exact ⟨a, l, rfl⟩
  have hbest : (probeAtWithRc g p txs).bestPower = (s0 : EReal) := by
    simp [probeAtWithRc, hs]
  refine ⟨s0, hbest, ?_, ?_, ?_⟩
  · rw [probe_qualityTier_eq, hbest, qualityTierOf_coe]
  · intro hb
    rw [probe_qualityTier_eq, hbest, qualityTierOf_coe, hb]
    rw [if_neg (by norm_num), if_pos (by norm_num)]
  · intro hb
    rw [probe_qualityTier_eq, hbest, qualityTierOf_coe, hb]
    rw [if_pos (by norm_num)]

/-- Witness for `probe_qualityTier_step`: the default transmitter in open
space. -/
theorem probe_qualityTier_step_witness :
    ([txAt 36] ≠ []) ∧
    (∃ b : ℝ, (probeAtWithRc flatGeom o3 [txAt 36]).bestPower = (b : EReal) ∧
      (probeAtWithRc flatGeom o3 [txAt 36]).qualityTier =
        (if (-70 : ℝ) < b then "excellent"
         else if (-85 : ℝ) < b then "good"
         else if (-100 : ℝ) < b then "fair"
         else if (-110 : ℝ) < b then "poor"
         else "dead") ∧
      (b = -70 → (probeAtWithRc flatGeom o3 [txAt 36]).qualityTier = "good") ∧
      (b = -69.9 →
        (probeAtWithRc flatGeom o3 [txAt 36]).qualityTier = "excellent")) :=
  ⟨by simp, probe_qualityTier_step flatGeom o3 [txAt 36] (by simp)⟩

/-! ### Claim C4 -/

/-- **C4.** For every transmitter and probe point: the probe issues a single
LOS query bounded by `max(dist − 0.25, 0.25)`; if any intersection is found,
the row is marked non-line-of-sight and its received power is exactly
`WALL_LOSS_DB = 25` dB below the unobstructed value
`powerDbm − fsplDb(dist, freq)`; otherwise only free-space loss applies and
the LOS flag is true. -/
theorem probe_los_wall_penalty (g : Geometry) (p : Vec3) (txs : List Tx)
    (i : ℕ) (hi : i < txs.length) :
    ∃ t : Tx, txs.get? i = some t ∧
      (probeAtWithRc g p txs).rows.get? i = some (probeRowOf g p i t) ∧
      (((g.nearestHit p (Vec3.normalize (t.pos - p))
          (max (Vec3.len (t.pos - p) - 0.25) 0.25)).isSome = true →
        (probeRowOf g p i t).los = false ∧
        (probeRowOf g p i t).pr
          = (t.powerDbm - fsplDb (Vec3.len (t.pos - p)) t.freqMHz)
              - WALL_LOSS_DB) ∧
      ((g.nearestHit p (Vec3.normalize (t.pos - p))
          (max (Vec3.len (t.pos - p) - 0.25) 0.25)).isSome = false →
        (probeRowOf g p i t).los = true ∧
        (probeRowOf g p i t).pr
          = t.powerDbm - fsplDb (Vec3.len (t.pos - p)) t.freqMHz)) := by
  obtain ⟨t, ht⟩ : ∃ t, txs.get? i = some t := ⟨txs.get ⟨i, hi⟩, List.get?_eq_get hi⟩
  refine ⟨t, ht, ?_, ?_, ?_⟩
  · have hrows : (probeAtWithRc g p txs).rows = probeRows g p 0 txs := rfl
    rw [hrows, probeRows_get? g p txs 0 i, ht]
    simp
  · intro hhit
    cases hq : g.nearestHit p (Vec3.normalize (t.pos - p))
        (max (Vec3.len (t.pos - p) - 0.25) 0.25) with
    | none => rw [hq] at hhit; cases hhit
    | some hitObj =>
      have hlos : (probeRowOf g p i t).los
          = (g.nearestHit p (Vec3.normalize (t.pos - p))
              (max (Vec3.len (t.pos - p) - 0.25) 0.25)).isNone := rfl
      have hpr : (probeRowOf g p i t).pr
          = t.powerDbm - (fsplDb (Vec3.len (t.pos - p)) t.freqMHz +
              if (g.nearestHit p (Vec3.normalize (t.pos - p))
                  (max (Vec3.len (t.pos - p) - 0.25) 0.25)).isNone then 0
              else WALL_LOSS_DB) := rfl
      constructor
      · rw [hlos, hq]
        rfl
      · rw [hpr, hq]
        simp only [Option.isNone_some, Bool.false_eq_true, if_false]
        ring
  · intro hmiss
    cases hq : g.nearestHit p (Vec3.normalize (t.pos - p))
        (max (Vec3.len (t.pos - p) - 0.25) 0.25) with
    | some hitObj => rw [hq] at hmiss; cases hmiss
    | none =>
      have hlos : (probeRowOf g p i t).los
          = (g.nearestHit p (Vec3.normalize (t.pos - p))
              (max (Vec3.len (t.pos - p) - 0.25) 0.25)).isNone := rfl
      have hpr : (probeRowOf g p i t).pr
          = t.powerDbm - (fsplDb (Vec3.len (t.pos - p)) t.freqMHz +
              if (g.nearestHit p (Vec3.normalize (t.pos - p))
                  (max (Vec3.len (t.pos - p) - 0.25) 0.25)).isNone then 0
              else WALL_LOSS_DB) := rfl
      constructor
      · rw [hlos, hq]
        rfl
      · rw [hpr, hq]
        simp only [Option.isNone_none, if_true]
        ring

/-- Witness for `probe_los_wall_penalty`: index 0 of a one-transmitter set. -/
theorem probe_los_wall_penalty_witness :
    0 < [txAt 36].length ∧
    (∃ t : Tx, [txAt 36].get? 0 = some t ∧
      (probeAtWithRc cexGeomA o3 [txAt 36]).rows.get? 0
        = some (probeRowOf cexGeomA o3 0 t) ∧
      (((cexGeomA.nearestHit o3 (Vec3.normalize (t.pos - o3))
          (max (Vec3.len (t.pos - o3) - 0.25) 0.25)).isSome = true →
        (probeRowOf cexGeomA o3 0 t).los = false ∧
        (probeRowOf cexGeomA o3 0 t).pr
          = (t.powerDbm - fsplDb (Vec3.len (t.pos - o3)) t.freqMHz)
              - WALL_LOSS_DB) ∧
      ((cexGeomA.nearestHit o3 (Vec3.normalize (t.pos - o3))
          (max (Vec3.len (t.pos - o3) - 0.25) 0.25)).isSome = false →
        (probeRowOf cexGeomA o3 0 t).los = true ∧
        (probeRowOf cexGeomA o3 0 t).pr
          = t.powerDbm - fsplDb (Vec3.len (t.pos - o3)) t.freqMHz))) :=
  ⟨by norm_num, probe_los_wall_penalty cexGeomA o3 [txAt 36] 0 (by norm_num)⟩

/-! ### Margin helper lemmas -/

lemma sortedPowers_single (g : Geometry) (p : Vec3) (t : Tx) :
    sortedPowers g p [t] = [probeVal g p t] := rfl

lemma sortedPowers_pair (g : Geometry) (p : Vec3) (t1 t2 : Tx)
    (h : probeVal g p t2 ≤ probeVal g p t1) :
    sortedPowers g p [t1, t2] = [probeVal g p t1, probeVal g p t2] := by
  unfold sortedPowers
  simp only [List.map_cons, List.map_nil, List.insertionSort, List.orderedInsert]
  rw [if_pos h]

lemma probe_margin_eq (g : Geometry) (p : Vec3) (txs : List Tx) {s0 s1 : ℝ}
    {rest : List ℝ} (hs : sortedPowers g p txs = s0 :: s1 :: rest) :
    (probeAtWithRc g p txs).margin = ((s0 - s1 : ℝ) : EReal) := by
  simp [probeAtWithRc, hs]

lemma probe_margin_single (g : Geometry) (p : Vec3) (t : Tx) :
    (probeAtWithRc g p [t]).margin = ((0 : ℝ) : EReal) := by
  have hs : sortedPowers g p [t] = [probeVal g p t] := sortedPowers_single g p t
  simp only [probeAtWithRc, hs, List.head?_cons, List.get?]
  rw [← EReal.coe_sub, sub_self]

lemma probeVal_flat (pw : ℝ) :
    probeVal flatGeom o3 (txAt pw) = pw - fsplDb 0 2400 := by
  unfold probeVal txAt flatGeom o3
  norm_num [Vec3.len, Real.sqrt_zero]

/-! ### Claim C6 -/

/-- **C6.** At every probe the handover-stability flag holds iff the margin
is at least 3.0 dB; a margin of exactly 3.0 dB (two co-located transmitters
at 40 and 37 dBm) is stable and a margin of 2.99 dB (40 and 37.01 dBm) is
unstable. -/
theorem probe_handover_threshold :
    (∀ (g : Geometry) (p : Vec3) (txs : List Tx),
      ((probeAtWithRc g p txs).handoverStable ↔
        ((3 : ℝ) : EReal) ≤ (probeAtWithRc g p txs).margin)) ∧
    (probeAtWithRc flatGeom o3 [txAt 40, txAt 37]).margin = ((3 : ℝ) : EReal) ∧
    (probeAtWithRc flatGeom o3 [txAt 40, txAt 37]).handoverStable ∧
    (probeAtWithRc flatGeom o3 [txAt 40, txAt 37.01]).margin
      = ((2.99 : ℝ) : EReal) ∧
    ¬ (probeAtWithRc flatGeom o3 [txAt 40, txAt 37.01]).handoverStable := by
  have hle1 : probeVal flatGeom o3 (txAt 37) ≤ probeVal flatGeom o3 (txAt 40) := by
    rw [probeVal_flat, probeVal_flat]; linarith
  have hle2 : probeVal flatGeom o3 (txAt 37.01) ≤ probeVal flatGeom o3 (txAt 40) := by
    rw [probeVal_flat, probeVal_flat]; linarith
  have hm1 : (probeAtWithRc flatGeom o3 [txAt 40, txAt 37]).margin
      = ((3 : ℝ) : EReal) := by
    rw [probe_margin_eq flatGeom o3 [txAt 40, txAt 37]
      (sortedPowers_pair flatGeom o3 (txAt 40) (txAt 37) hle1)]
    rw [EReal.coe_eq_coe_iff, probeVal_flat, probeVal_flat]
    ring
  have hm2 : (probeAtWithRc flatGeom o3 [txAt 40, txAt 37.01]).margin
      = ((2.99 : ℝ) : EReal) := by
    rw [probe_margin_eq flatGeom o3 [txAt 40, txAt 37.01]
      (sortedPowers_pair flatGeom o3 (txAt 40) (txAt 37.01) hle2)]
    rw [EReal.coe_eq_coe_iff, probeVal_flat, probeVal_flat]
    ring
  refine ⟨fun g p txs => probe_handoverStable_iff g p txs, hm1, ?_, hm2, ?_⟩
  · rw [probe_handoverStable_iff, hm1]
  · intro hstab
    have h3 := (probe_handoverStable_iff flatGeom o3 [txAt 40, txAt 37.01]).mp hstab
    rw [hm2, EReal.coe_le_coe_iff] at h3
    norm_num at h3

/-! ### Claim C5 -/

/-- **C5 counterexample.** A probe over exactly one transmitter reports a
margin of 0 (the source's `sorted[1] ?? best` makes the second-best default
to the best, so `margin = best - best = 0`) — not an unbounded/infinite
margin. -/
theorem probe_margin_single_cex :
    (probeAtWithRc flatGeom o3 [txAt 36]).margin = ((0 : ℝ) : EReal) ∧
    (probeAtWithRc flatGeom o3 [txAt 36]).margin ≠ ⊤ := by
  have h := probe_margin_single flatGeom o3 (txAt 36)
  exact ⟨h, by rw [h]; exact EReal.coe_ne_top 0⟩

/-- **C5 (amended).** With two or more transmitters the probe margin equals
best minus second-best received power (descending sort); with exactly one
transmitter `probeAtWithRc` reports margin 0, not infinity — only the
`explain-rf` route reports `Infinity` for a single transmitter
(`routeMargin`). -/
theorem probe_margin_second_best (g : Geometry) (p : Vec3) (txs : List Tx) :
    (txs.length = 1 → (probeAtWithRc g p txs).margin = ((0 : ℝ) : EReal)) ∧
    (2 ≤ txs.length →
      ∃ s0 s1 rest, sortedPowers g p txs = s0 :: s1 :: rest ∧ s1 ≤ s0 ∧
        (probeAtWithRc g p txs).margin = ((s0 - s1 : ℝ) : EReal)) ∧
    (∀ b : ℝ, routeMargin [b] = ⊤) := by
  refine ⟨?_, ?_, fun b => rfl⟩
  · intro h1
    obtain ⟨t, ht⟩ := List.length_eq_one.mp h1
    subst ht
    exact probe_margin_single g p t
  · intro h2
    have hlen : 2 ≤ (sortedPowers g p txs).length := by
      rw [sortedPowers_length]; exact h2
    obtain ⟨s0, s1, rest, hsp⟩ :
        ∃ s0 s1 rest, sortedPowers g p txs = s0 :: s1 :: rest := by
      cases hsp : sortedPowers g p txs with
      | nil => rw [hsp] at hlen; norm_num at hlen
      | cons a tail =>
        cases tail with
        | nil => rw [hsp] at hlen; norm_num at hlen
        | cons b rest2 => exact ⟨a, b, rest2, rfl⟩
    have hsorted := sortedPowers_sorted g p txs
    rw [hsp, List.sorted_cons] at hsorted
    exact ⟨s0, s1, rest, hsp, hsorted.1 s1 (by simp),
      probe_margin_eq g p txs hsp⟩

/-- Witness for `probe_margin_second_best`: one- and two-transmitter sets. -/
theorem probe_margin_second_best_witness :
    ([txAt 36].length = 1 ∧
      (probeAtWithRc flatGeom o3 [txAt 36]).margin = ((0 : ℝ) : EReal)) ∧
    (2 ≤ [txAt 40, txAt 37].length ∧
      ∃ s0 s1 rest,
        sortedPowers flatGeom o3 [txAt 40, txAt 37] = s0 :: s1 :: rest ∧
        s1 ≤ s0 ∧
        (probeAtWithRc flatGeom o3 [txAt 40, txAt 37]).margin
          = ((s0 - s1 : ℝ) : EReal)) :=
  ⟨⟨rfl, (probe_margin_second_best flatGeom o3 [txAt 36]).1 rfl⟩,
   ⟨by norm_num,
    (probe_margin_second_best flatGeom o3 [txAt 40, txAt 37]).2.1 (by norm_num)⟩⟩

/-! ### Claim C8 -/

/-- **C8 counterexample.** Probing an empty transmitter set does *not* leave
the best index absent: the source's `(bestIdx >= 0 ? bestIdx : 0) + 1` turns
the softmax sentinel `-1` into a reported best index of `1`, even though
there are no rows at all. -/
theorem probe_empty_bestIdx_cex :
    (probeAtWithRc flatGeom o3 []).bestIdx = 1 ∧
    (probeAtWithRc flatGeom o3 []).rows = [] := by
  constructor
  · simp [probeAtWithRc, softmaxDbm]
  · rfl

/-- **C8 (amended).** Probing with an empty transmitter set raises no error
and yields empty rows and weights, best power −∞ (`⊥`), a margin that is not
a number (JS `NaN`, modelled `⊥`; every comparison on it is false), quality
tier "dead", interference count 0 and an unstable handover flag — but the
reported best index is `1` (the `0` fallback plus the 1-based offset), not
"no best index". -/
theorem probe_empty_payload (g : Geometry) (p : Vec3) :
    (probeAtWithRc g p []).rows = [] ∧
    (probeAtWithRc g p []).weights = [] ∧
    (probeAtWithRc g p []).bestPower = (⊥ : EReal) ∧
    (probeAtWithRc g p []).margin = (⊥ : EReal) ∧
    (probeAtWithRc g p []).qualityTier = "dead" ∧
    (probeAtWithRc g p []).interferenceCount = 0 ∧
    ¬ (probeAtWithRc g p []).handoverStable ∧
    (probeAtWithRc g p []).bestIdx = 1 := by
  have hbest : (probeAtWithRc g p []).bestPower = (⊥ : EReal) := by
    simp [probeAtWithRc, sortedPowers, softmaxDbm]
  have hmargin : (probeAtWithRc g p []).margin = (⊥ : EReal) := by
    simp [probeAtWithRc, sortedPowers, softmaxDbm, EReal.bot_sub]
  refine ⟨rfl, rfl, hbest, hmargin, ?_, rfl, ?_, ?_⟩
  · rw [probe_qualityTier_eq, hbest]
    unfold qualityTierOf
    rw [if_neg not_lt_bot, if_neg not_lt_bot, if_neg not_lt_bot,
      if_neg not_lt_bot]
  · rw [probe_handoverStable_iff, hmargin]
    intro hc
    exact EReal.coe_ne_bot 3 (le_bot_iff.mp hc)
  · simp [probeAtWithRc, softmaxDbm]

/-! ### Claim C7 -/

lemma list_sum_map_div (l : List ℝ) (c : ℝ) :
    (l.map fun e => e / c).sum = l.sum / c := by
  induction l with
  | nil => simp
  | cons a t ih => simp [ih, add_div]

lemma softmaxDbm_weights_sum_one {values : List ℝ} (hv : values ≠ []) :
    (softmaxDbm values 4).1.sum = 1 := by
  cases values with
  | nil => exact absurd rfl hv
  | cons v vs =>
    unfold softmaxDbm
    dsimp only
    have hpos : 0 < ((v :: vs).map fun w =>
        Real.exp ((w - vs.foldl max v) / 4)).sum := by
      apply List.sum_pos
      · intro a ha
        obtain ⟨w, _, hw⟩ := List.mem_map.mp ha
        rw [← hw]
        exact Real.exp_pos _
      · simp
    rw [if_neg hpos.ne', list_sum_map_div, div_self hpos.ne']

lemma softmaxDbm_weights_nonneg (values : List ℝ) (temp : ℝ) :
    ∀ w ∈ (softmaxDbm values temp).1, 0 ≤ w := by
  cases values with
  | nil => intro w hw; simp [softmaxDbm] at hw
  | cons v vs =>
    intro w hw
    unfold softmaxDbm at hw
    dsimp only at hw
    obtain ⟨e, he, hew⟩ := List.mem_map.mp hw
    obtain ⟨u, _, hu⟩ := List.mem_map.mp he
    have hse : 0 < e := by rw [← hu]; exact Real.exp_pos _
    have hsum : 0 ≤ ((v :: vs).map fun x =>
        Real.exp ((x - vs.foldl max v) / temp)).sum := by
      apply List.sum_nonneg
      intro a ha
      obtain ⟨x, _, hx⟩ := List.mem_map.mp ha
      rw [← hx]
      exact (Real.exp_pos _).le
    rw [← hew]
    by_cases hz : ((v :: vs).map fun x =>
        Real.exp ((x - vs.foldl max v) / temp)).sum = 0
    · rw [if_pos hz]
      simpa using hse.le
    · rw [if_neg hz]
      exact div_nonneg hse.le hsum

/-- **C7.** Softmax weights at temperature 4 are nonnegative and sum to
exactly 1 for every non-empty value list (hence within any floating-point
tolerance), so every non-empty probe's weights sum to 1; an empty list
yields an empty weight list. -/
theorem softmax_weights_normalized (values : List ℝ) (hv : values ≠ [])
    (g : Geometry) (p : Vec3) (txs : List Tx) (ht : txs ≠ []) :
    (∀ w ∈ (softmaxDbm values 4).1, 0 ≤ w) ∧
    (softmaxDbm values 4).1.sum = 1 ∧
    (softmaxDbm ([] : List ℝ) 4).1 = [] ∧
    (probeAtWithRc g p txs).weights.sum = 1 := by
  refine ⟨softmaxDbm_weights_nonneg values 4, softmaxDbm_weights_sum_one hv,
    rfl, ?_⟩
  have hmap : txs.map (probeVal g p) ≠ [] := by
    simpa [List.map_eq_nil_iff] using ht
  exact softmaxDbm_weights_sum_one hmap

/-- Witness for `softmax_weights_normalized`. -/
theorem softmax_weights_normalized_witness :
    (([-50, -60] : List ℝ) ≠ [] ∧ ([txAt 36] : List Tx) ≠ []) ∧
    ((∀ w ∈ (softmaxDbm [-50, -60] 4).1, 0 ≤ w) ∧
     (softmaxDbm ([-50, -60] : List ℝ) 4).1.sum = 1 ∧
     (softmaxDbm ([] : List ℝ) 4).1 = [] ∧
     (probeAtWithRc flatGeom o3 [txAt 36]).weights.sum = 1) :=
  ⟨⟨by simp, by simp⟩,
    softmax_weights_normalized [-50, -60] (by simp) flatGeom o3 [txAt 36]
      (by simp)⟩

/-! ### Claim C9 -/

/-- **C9.** For every query point, transmitter set and time (and nonnegative
intensity scale — the component default is 6.0), the interference field
intensity `1 − exp(−intensityScale · E²)` lies in `[0, 1)`, where `E` is the
linear superposition over at most the first `MAX_TX = 8` transmitters:
transmitters beyond the 8th contribute nothing. -/
theorem fieldValue_bounded (txs : List Tx) (world : Vec3)
    (time pts iscale sscale : ℝ) (hi : 0 ≤ iscale) :
    0 ≤ fieldValue txs world time pts iscale sscale ∧
    fieldValue txs world time pts iscale sscale < 1 ∧
    fieldValue txs world time pts iscale sscale
      = fieldValue (txs.take MAX_TX) world time pts iscale sscale ∧
    fieldValue txs world time pts iscale sscale
      = 1 - Real.exp (-(iscale * fieldE txs world time pts sscale ^ 2)) := by
  have htake : fieldE (txs.take MAX_TX) world time pts sscale
      = fieldE txs world time pts sscale := by
    unfold fieldE
    rw [List.take_take, min_self]
  have hI : 0 ≤ fieldE txs world time pts sscale *
      fieldE txs world time pts sscale * iscale :=
    mul_nonneg (mul_self_nonneg _) hi
  have hle : Real.exp (-(fieldE txs world time pts sscale *
      fieldE txs world time pts sscale * iscale)) ≤ 1 := by
    have h := Real.exp_le_exp.mpr (neg_nonpos.mpr hI)
    rwa [Real.exp_zero] at h
  have hgt : 0 < Real.exp (-(fieldE txs world time pts sscale *
      fieldE txs world time pts sscale * iscale)) := Real.exp_pos _
  refine ⟨?_, ?_, ?_, ?_⟩
  · unfold fieldValue
    dsimp only
    linarith
  · unfold fieldValue
    dsimp only
    linarith
  · unfold fieldValue
    dsimp only
    rw [htake]
  · unfold fieldValue
    dsimp only
    congr 2
    ring

/-- Witness for `fieldValue_bounded` at the component's default scales. -/
theorem fieldValue_bounded_witness :
    (0 : ℝ) ≤ DEFAULT_INTENSITY_SCALE ∧
    (0 ≤ fieldValue [txAt 36] o3 0 1e-9 DEFAULT_INTENSITY_SCALE 0.03 ∧
     fieldValue [txAt 36] o3 0 1e-9 DEFAULT_INTENSITY_SCALE 0.03 < 1 ∧
     fieldValue [txAt 36] o3 0 1e-9 DEFAULT_INTENSITY_SCALE 0.03
       = fieldValue ([txAt 36].take MAX_TX) o3 0 1e-9 DEFAULT_INTENSITY_SCALE 0.03 ∧
     fieldValue [txAt 36] o3 0 1e-9 DEFAULT_INTENSITY_SCALE 0.03
       = 1 - Real.exp (-(DEFAULT_INTENSITY_SCALE *
           fieldE [txAt 36] o3 0 1e-9 0.03 ^ 2))) :=
  ⟨by norm_num [DEFAULT_INTENSITY_SCALE],
    fieldValue_bounded [txAt 36] o3 0 1e-9 DEFAULT_INTENSITY_SCALE 0.03
      (by norm_num [DEFAULT_INTENSITY_SCALE])⟩

/-! ### Claim C10 -/

lemma probe_bestIdx_pos (g : Geometry) (p : Vec3) (txs : List Tx) :
    1 ≤ (probeAtWithRc g p txs).bestIdx := by
  have hb : (probeAtWithRc g p txs).bestIdx
      = (if 0 ≤ (softmaxDbm (txs.map (probeVal g p)) 4).2
         then (softmaxDbm (txs.map (probeVal g p)) 4).2 else 0) + 1 := rfl
  rw [hb]
  split
  · omega
  · omega

lemma bestAt_ne_neg_one (g : Geometry) (txs : List Tx) (q : Vec3) :
    bestAt g txs q ≠ -1 := by
  have := probe_bestIdx_pos g q txs
  unfold bestAt
  omega

/-- The `lastBest` scan is exactly "emit whenever the best index differs
between consecutive samples", once a first sample has seeded `lastBest`. -/
lemma scanHandovers_eq (g : Geometry) (txs : List Tx) :
    ∀ (samples : List Vec3) (p : Vec3),
      scanHandovers g txs (bestAt g txs p) samples
        = ((p :: samples).zip samples).filterMap fun pq =>
            if bestAt g txs pq.2 ≠ bestAt g txs pq.1 then
              some ⟨pq.2, bestAt g txs pq.1, bestAt g txs pq.2⟩
            else none := by
  intro samples
  induction samples with
  | nil => intro p; rfl
  | cons q rest ih =>
    intro p
    rw [scanHandovers]
    simp only [List.zip_cons_cons, List.filterMap_cons]
    by_cases hchg : bestAt g txs q ≠ bestAt g txs p
    · rw [if_pos ⟨bestAt_ne_neg_one g txs p, hchg⟩, if_pos hchg, ih q]
    · push_neg at hchg
      rw [if_neg (by simp [hchg]), if_neg (by simp [hchg])]
      exact ih q

/-- **C10 counterexample.** The resampler does not place samples at a fixed
6 m step, and it is not a full linear interpolation: a 30 m segment gets
`max(2, ⌈30/6⌉) = 5` samples spaced 7.5 m apart (x-coordinates
`[0, 7.5, 15, 22.5, 30]`), and on a segment whose endpoints differ in `y`
every sample keeps the segment start's `y` (here `[0, 0]` although
`lerp` at `t = 1` has `y = 10`). -/
theorem path_resample_cex :
    ((analyzePath flatGeom [txAt 36] [⟨0, 0, 0⟩, ⟨30, 0, 0⟩]).1.map Vec3.x)
      = [0, 7.5, 15, 22.5, 30] ∧
    (7.5 : ℝ) - 0 ≠ STEP ∧
    ((analyzePath flatGeom [txAt 36] [⟨0, 0, 0⟩, ⟨0, 10, 0⟩]).1.map Vec3.y)
      = [0, 0] ∧
    (Vec3.lerp ⟨0, 0, 0⟩ ⟨0, 10, 0⟩ 1).y = 10 := by
  have hguard1 : ¬(([(⟨0, 0, 0⟩ : Vec3), ⟨30, 0, 0⟩] : List Vec3).length < 2 ∨
      ([txAt 36] : List Tx).length = 0 ∨ flatGeom.meshCount = 0) := by
    norm_num [flatGeom]
  have hguard2 : ¬(([(⟨0, 0, 0⟩ : Vec3), ⟨0, 10, 0⟩] : List Vec3).length < 2 ∨
      ([txAt 36] : List Tx).length = 0 ∨ flatGeom.meshCount = 0) := by
    norm_num [flatGeom]
  have hd1 : Vec3.distTo (⟨0, 0, 0⟩ : Vec3) ⟨30, 0, 0⟩ = 30 := by
    unfold Vec3.distTo Vec3.len
    simp only [Vec3.sub_def]
    rw [show ((30 : ℝ) - 0) ^ 2 + (0 - 0) ^ 2 + (0 - 0) ^ 2 = 30 ^ 2 by ring]
    exact Real.sqrt_sq (by norm_num)
  have hd2 : Vec3.distTo (⟨0, 0, 0⟩ : Vec3) ⟨0, 10, 0⟩ = 10 := by
    unfold Vec3.distTo Vec3.len
    simp only [Vec3.sub_def]
    rw [show ((0 : ℝ) - 0) ^ 2 + (10 - 0) ^ 2 + (0 - 0) ^ 2 = 10 ^ 2 by ring]
    exact Real.sqrt_sq (by norm_num)
  have hc1 : segmentCount (⟨0, 0, 0⟩ : Vec3) ⟨30, 0, 0⟩ = 5 := by
    unfold segmentCount STEP
    rw [hd1, show max (30 : ℝ) 1e-6 = 30 by norm_num,
      show (30 : ℝ) / 6 = 5 by norm_num]
    norm_num
  have hc2 : segmentCount (⟨0, 0, 0⟩ : Vec3) ⟨0, 10, 0⟩ = 2 := by
    unfold segmentCount STEP
    rw [hd2, show max (10 : ℝ) 1e-6 = 10 by norm_num]
    have : ⌈(10 : ℝ) / 6⌉₊ = 2 := by
      rw [Nat.ceil_eq_iff (by norm_num)]
      norm_num
    rw [this]
    exact max_self 2
  refine ⟨?_, by norm_num [STEP], ?_, by norm_num [Vec3.lerp]⟩
  · unfold analyzePath
    rw [if_neg hguard1]
    dsimp only
    unfold pathSamples pathPairs
    simp only [List.tail_cons, List.zip_cons_cons, List.zip_nil_right,
      List.flatMap_cons, List.flatMap_nil, List.append_nil]
    unfold segmentSamples
    rw [hc1, show List.range 5 = [0, 1, 2, 3, 4] from rfl]
    norm_num [Vec3.lerp]
  · unfold analyzePath
    rw [if_neg hguard2]
    dsimp only
    unfold pathSamples pathPairs
    simp only [List.tail_cons, List.zip_cons_cons, List.zip_nil_right,
      List.flatMap_cons, List.flatMap_nil, List.append_nil]
    unfold segmentSamples
    rw [hc2, show List.range 2 = [0, 1] from rfl]
    norm_num [Vec3.lerp]

/-- **C10 (amended).** With at least two path points, a non-empty transmitter
set and a non-empty scene, the analyzer samples every segment with
`max(2, ⌈segLen/6⌉)` evenly spaced samples — so the spacing is
`segLen/(count−1)`, approximately but not exactly 6 m — interpolating
linearly in `x` and `z` while pinning each sample's `y` to the segment
start; it probes every sample, and emits a handover event exactly when the
probe's best-server index differs between consecutive samples, recording the
transition point and the previous/next best indices. -/
theorem path_resample_handover (g : Geometry) (txs : List Tx)
    (points : List Vec3) (h1 : 2 ≤ points.length) (h2 : txs ≠ [])
    (h3 : g.meshCount ≠ 0) :
    (analyzePath g txs points).1 = pathSamples points ∧
    (∀ ab ∈ pathPairs points,
      (segmentSamples ab.1 ab.2).length
        = max 2 ⌈max (Vec3.distTo ab.1 ab.2) 1e-6 / STEP⌉₊ ∧
      ∀ k, k < segmentCount ab.1 ab.2 →
        (segmentSamples ab.1 ab.2).get? k
          = some ⟨(Vec3.lerp ab.1 ab.2
                ((k : ℝ) / ((segmentCount ab.1 ab.2 : ℝ) - 1))).x,
              ab.1.y,
              (Vec3.lerp ab.1 ab.2
                ((k : ℝ) / ((segmentCount ab.1 ab.2 : ℝ) - 1))).z⟩) ∧
    (analyzePath g txs points).2
      = ((pathSamples points).zip (pathSamples points).tail).filterMap
          fun pq =>
            if bestAt g txs pq.2 ≠ bestAt g txs pq.1 then
              some ⟨pq.2, bestAt g txs pq.1, bestAt g txs pq.2⟩
            else none := by
  have hguard : ¬(points.length < 2 ∨ txs.length = 0 ∨ g.meshCount = 0) := by
    push_neg
    exact ⟨by omega, fun hl => h2 (List.length_eq_zero.mp hl), h3⟩
  refine ⟨?_, ?_, ?_⟩
  · unfold analyzePath
    rw [if_neg hguard]
  · intro ab _
    constructor
    · unfold segmentSamples segmentCount
      rw [List.length_map, List.length_range]
    · intro k hk
      unfold segmentSamples
      rw [List.get?_map, List.get?_range hk]
      rfl
  · unfold analyzePath
    rw [if_neg hguard]
    dsimp only
    cases hps : pathSamples points with
    | nil => rfl
    | cons p0 rest =>
      rw [scanHandovers]
      rw [if_neg (by simp)]
      rw [scanHandovers_eq g txs rest p0]
      rfl

/-- Witness for `path_resample_handover` on a concrete two-point path. -/
theorem path_resample_handover_witness :
    (2 ≤ ([(⟨0, 0, 0⟩ : Vec3), ⟨30, 0, 0⟩] : List Vec3).length ∧
      ([txAt 36] : List Tx) ≠ [] ∧ flatGeom.meshCount ≠ 0) ∧
    ((analyzePath flatGeom [txAt 36] [⟨0, 0, 0⟩, ⟨30, 0, 0⟩]).1
        = pathSamples [⟨0, 0, 0⟩, ⟨30, 0, 0⟩] ∧
     (∀ ab ∈ pathPairs [(⟨0, 0, 0⟩ : Vec3), ⟨30, 0, 0⟩],
       (segmentSamples ab.1 ab.2).length
         = max 2 ⌈max (Vec3.distTo ab.1 ab.2) 1e-6 / STEP⌉₊ ∧
       ∀ k, k < segmentCount ab.1 ab.2 →
         (segmentSamples ab.1 ab.2).get? k
           = some ⟨(Vec3.lerp ab.1 ab.2
                 ((k : ℝ) / ((segmentCount ab.1 ab.2 : ℝ) - 1))).x,
               ab.1.y,
               (Vec3.lerp ab.1 ab.2
                 ((k : ℝ) / ((segmentCount ab.1 ab.2 : ℝ) - 1))).z⟩) ∧
     (analyzePath flatGeom [txAt 36] [⟨0, 0, 0⟩, ⟨30, 0, 0⟩]).2
       = ((pathSamples [(⟨0, 0, 0⟩ : Vec3), ⟨30, 0, 0⟩]).zip
             (pathSamples [(⟨0, 0, 0⟩ : Vec3), ⟨30, 0, 0⟩]).tail).filterMap
           fun pq =>
             if bestAt flatGeom [txAt 36] pq.2 ≠ bestAt flatGeom [txAt 36] pq.1
             then some ⟨pq.2, bestAt flatGeom [txAt 36] pq.1,
                 bestAt flatGeom [txAt 36] pq.2⟩
             else none) :=
  ⟨⟨by norm_num, by simp, by norm_num [flatGeom]⟩,
    path_resample_handover flatGeom [txAt 36] [⟨0, 0, 0⟩, ⟨30, 0, 0⟩]
      (by norm_num) (by simp) (by norm_num [flatGeom])⟩
